import Mathlib

/-!
Shallow embedding of the Newport motion drivers
(`motion.py`, `motionesp301.py`, `motionsmc100.py`).

Positions, tolerances and backlash offsets are embedded as rationals.
The device side of the serial link is modelled explicitly: an `Axis`
record carries the driver state (`num`, `backlash`, `accuracy`,
`last_set_position`) together with the position the device currently
reports on a `TP?` query and the not-yet-settled commanded target.  A
`settle` environment says where the physical stage lands once a
commanded absolute move completes.  Every interaction with the device
or the log is recorded as an event (`Ev`), so theorems can speak about
which commands a routine issues and in which order.
-/

namespace Newport

/-- Default relative tolerance of numpy's `isclose` (`rtol=1e-05`).
The source calls `np.isclose(a, b, atol=self.accuracy)`, which leaves
this relative term in place. -/
def rtol : ℚ := 1 / 100000

/-- Embedding of `np.isclose(a, b, atol)` with numpy's default `rtol`:
`abs(a - b) <= atol + rtol * abs(b)`. -/
def isclose (a b atol : ℚ) : Bool := decide (|a - b| ≤ atol + rtol * |b|)

/-- One observable interaction of the driver: a query or write on the
serial link, or a message on the logging side channel. -/
inductive Ev where
  /-- an axis-prefixed query such as `TP?`, `MO?`, `TE?` -/
  | query (num : ℕ) (mn : String)
  /-- the identity query `<n>ID?` sent during discovery -/
  | queryIdn (num : ℕ)
  /-- the controller-scope error query `TE?` of ESP301 discovery -/
  | queryErr
  /-- an axis-prefixed write of a plain command mnemonic -/
  | writeCmd (num : ℕ) (cmd : String)
  /-- the absolute-move write `<n>PA<v>` -/
  | pa (num : ℕ) (v : ℚ)
  /-- a full `_wait_until_done` poll loop on axis `num` -/
  | waitDone (num : ℕ)
  /-- `log_info` of the skipped move in `_set_position` -/
  | logInfoSkip (num : ℕ) (pos current : ℚ)
  /-- `log_info('Using backlash')` -/
  | logInfoBacklash (num : ℕ)
  /-- `log_error('Axis not enabled. Not moving!')` -/
  | logErrNotEnabled (num : ℕ)
  /-- `log_error` of `check_position`, reporting accuracy, expected and
  measured position -/
  | logErrCheck (num : ℕ) (accuracy expected measured : ℚ)
  /-- `log_error` of `MotionAxisSMC100.get_errors` -/
  | logErrAxis (num : ℕ) (msg : String)
deriving DecidableEq

/-- Driver-plus-device state of one axis.  `pos` is what the device
reports on `TP?`; `pending` is a commanded target whose motion has not
been waited on yet. -/
structure Axis where
  num : ℕ
  isOn : Bool
  backlash : ℚ
  accuracy : ℚ
  last_set_position : ℚ
  pos : ℚ
  pending : Option ℚ
deriving DecidableEq

/-- Name-mangled `MotionAxis.__set_position`: write `PA<pos>` and record
`last_set_position`. -/
def setPositionRaw (a : Axis) (p : ℚ) : Axis × List Ev :=
  ({ a with pending := some p, last_set_position := p }, [Ev.pa a.num p])

/-- Effect of a completed wait on the device: a pending target settles
to the position the environment `settle` assigns to it. -/
def settleAxis (settle : ℕ → ℚ → ℚ) (a : Axis) : Axis :=
  match a.pending with
  | some t => { a with pos := settle a.num t, pending := none }
  | none => a

/-- `MotionAxis._wait_until_done`, at the level of abstraction where the
whole poll loop is one event and the stage has settled when it returns.
(The poll loop itself, with its possible divergence, is modelled
separately by `waitPoll`.) -/
def waitUntilDone (settle : ℕ → ℚ → ℚ) (a : Axis) : Axis × List Ev :=
  (settleAxis settle a, [Ev.waitDone a.num])

/-- `MotionAxis.check_position(pos)`: `np.isclose(self.position, pos,
atol=self.accuracy)`; on failure the error log re-reads `self.position`
and reports accuracy, expected and measured values. -/
def check_position (a : Axis) (p : ℚ) : Bool × List Ev :=
  if isclose a.pos p a.accuracy then
    (true, [Ev.query a.num "TP?"])
  else
    (false, [Ev.query a.num "TP?", Ev.query a.num "TP?",
             Ev.logErrCheck a.num a.accuracy p a.pos])

/-- `MotionAxis._set_position(pos, wait, force)` from `motion.py`:
guard on `is_on`, skip when `np.isclose(pos, current, atol=accuracy)`
and not forced, optional backlash pre-move (always waited on), final
`PA<pos>`, and, when `wait` is truthy, a wait plus `check_position`. -/
def set_position (settle : ℕ → ℚ → ℚ) (a : Axis) (p : ℚ)
    (wait force : Bool) : Axis × List Ev :=
  if a.isOn = false then
    (a, [Ev.query a.num "MO?", Ev.logErrNotEnabled a.num])
  else
    let current := a.pos
    if force = false ∧ isclose p current a.accuracy then
      (a, [Ev.query a.num "MO?", Ev.query a.num "TP?",
           Ev.logInfoSkip a.num p current])
    else
      let guardEvs : List Ev := [Ev.query a.num "MO?", Ev.query a.num "TP?"]
      let step1 : Axis × List Ev :=
        if a.backlash ≠ 0 then
          let position := a.pos
          if (a.backlash < 0 ∧ position > p) ∨
             (a.backlash > 0 ∧ position < p) then
            let s1 := setPositionRaw a (p + a.backlash)
            let s2 := waitUntilDone settle s1.1
            (s2.1, [Ev.query a.num "TP?", Ev.logInfoBacklash a.num]
                     ++ s1.2 ++ s2.2)
          else (a, [Ev.query a.num "TP?"])
        else (a, [])
      let s3 := setPositionRaw step1.1 p
      if wait then
        let s4 := waitUntilDone settle s3.1
        let s5 := check_position s4.1 p
        (s4.1, guardEvs ++ step1.2 ++ s3.2 ++ s4.2 ++ s5.2)
      else
        (s3.1, guardEvs ++ step1.2 ++ s3.2)

/-- Is this event a motion command (an absolute move or a wait)? -/
def Ev.isMotion : Ev → Bool
  | Ev.pa _ _ => true
  | Ev.waitDone _ => true
  | _ => false

/-- Is this event an absolute-move (`PA`) write? -/
def Ev.isPa : Ev → Bool
  | Ev.pa _ _ => true
  | _ => false

/-- The axis an event addresses, when it addresses one. -/
def Ev.evNum : Ev → Option ℕ
  | Ev.query n _ => some n
  | Ev.queryIdn n => some n
  | Ev.queryErr => none
  | Ev.writeCmd n _ => some n
  | Ev.pa n _ => some n
  | Ev.waitDone n => some n
  | Ev.logInfoSkip n _ _ => some n
  | Ev.logInfoBacklash n => some n
  | Ev.logErrNotEnabled n => some n
  | Ev.logErrCheck n _ _ _ => some n
  | Ev.logErrAxis n _ => some n

/-- The motion commands (moves and waits) of a trace, in order. -/
def motionEvents (l : List Ev) : List Ev := l.filter Ev.isMotion

/-- The absolute-move writes of a trace, in order. -/
def paEvents (l : List Ev) : List Ev := l.filter Ev.isPa

/-- Phase 1 of `MotionController._position`: `for p, axis in zip(pos,
self.axes): if p is not None: axis._set_position(p, wait=False)`.
Entries with no value are skipped; `zip` truncates at the shorter
list. -/
def dispatchMoves (settle : ℕ → ℚ → ℚ) :
    List (Option ℚ) → List Axis → List Axis × List Ev
  | _, [] => ([], [])
  | [], axes => (axes, [])
  | none :: ps, a :: as =>
      let r := dispatchMoves settle ps as
      (a :: r.1, r.2)
  | some p :: ps, a :: as =>
      let s := set_position settle a p false false
      let r := dispatchMoves settle ps as
      (s.1 :: r.1, s.2 ++ r.2)

/-- Phase 2 of `MotionController._position`: wait on and verify every
axis that was given a value. -/
def waitAndCheck (settle : ℕ → ℚ → ℚ) :
    List (Option ℚ) → List Axis → List Axis × List Ev
  | _, [] => ([], [])
  | [], axes => (axes, [])
  | none :: ps, a :: as =>
      let r := waitAndCheck settle ps as
      (a :: r.1, r.2)
  | some p :: ps, a :: as =>
      let w := waitUntilDone settle a
      let c := check_position w.1 p
      let r := waitAndCheck settle ps as
      (w.1 :: r.1, w.2 ++ c.2 ++ r.2)

/-- `MotionController.position` (read): one `TP?` per axis, aggregated
in order. -/
def positionRead (axes : List Axis) : List ℚ × List Ev :=
  (axes.map (fun a => a.pos), axes.map (fun a => Ev.query a.num "TP?"))

/-- `MotionController._position(pos, wait_until_done)`: dispatch all
present entries without waiting, then (when waiting) wait on and verify
each dispatched axis and return the freshly re-read aggregate position;
without waiting it returns the argument unchanged. -/
def ctrl_position (settle : ℕ → ℚ → ℚ) (axes : List Axis)
    (ps : List (Option ℚ)) (wait_until_done : Bool) :
    List Axis × List (Option ℚ) × List Ev :=
  let d := dispatchMoves settle ps axes
  if wait_until_done then
    let w := waitAndCheck settle ps d.1
    let f := positionRead w.1
    (w.1, f.1.map some, d.2 ++ w.2 ++ f.2)
  else
    (d.1, ps, d.2)

/-- `ESP301.detect_axis`, driven by a finite response script: each
entry is the outcome of the `<i>ID?` query at the next address (`some
id` on success, `none` when the query raises) paired with the `TE?`
error code that would be read after a failure.  Error 37 appends an
empty slot and continues, error 9 stops the scan, any other code is
raised (`Except.error`).  A `none` overall result means the script ran
out before the loop stopped. -/
def detect_axis_esp (i : ℕ) :
    List (Option String × ℕ) → List Ev × Option (Except ℕ (List (Option (ℕ × String))))
  | [] => ([], none)
  | (some id, _) :: rest =>
      let r := detect_axis_esp (i + 1) rest
      (Ev.queryIdn i :: r.1, r.2.map (Except.map (fun l => some (i, id) :: l)))
  | (none, err) :: rest =>
      if err = 37 then
        let r := detect_axis_esp (i + 1) rest
        (Ev.queryIdn i :: Ev.queryErr :: r.1,
         r.2.map (Except.map (fun l => none :: l)))
      else if err = 9 then
        ([Ev.queryIdn i, Ev.queryErr], some (Except.ok []))
      else
        ([Ev.queryIdn i, Ev.queryErr], some (Except.error err))

/-- `SMC100.detect_axis`, driven by a finite script of `<i>ID?`
replies: an empty reply stops the scan, a non-empty reply appends an
axis `(address, id)`.  No error query is made and no placeholder slot
is appended. -/
def detect_axis_smc (i : ℕ) :
    List String → List Ev × Option (List (ℕ × String))
  | [] => ([], none)
  | id :: rest =>
      if id = "" then ([Ev.queryIdn i], some [])
      else
        let r := detect_axis_smc (i + 1) rest
        (Ev.queryIdn i :: r.1, r.2.map (fun l => (i, id) :: l))

/-- The fixed SMC100 error table (`ERRORS` in `motionsmc100.py`). -/
def ERRORS : String → Option String
  | "@" => some ""
  | "A" => some "Unknown message code or floating point controller address."
  | "B" => some "Controller address not correct."
  | "C" => some "Parameter missing or out of range."
  | "D" => some "Execution not allowed."
  | "E" => some "home sequence already started."
  | "I" => some "Execution not allowed in CONFIGURATION state."
  | "J" => some "Execution not allowed in DISABLE state."
  | "K" => some "Execution not allowed in READY state."
  | "L" => some "Execution not allowed in HOMING state."
  | "M" => some "Execution not allowed in MOVING state."
  | _ => none

/-- The fallback message `ERRORS.get(ret, 'Error {ret}. Lookup in
manual: ...')` builds for a code missing from the table. -/
def fallbackError (ret : String) : String :=
  "Error " ++ ret ++ ". Lookup in manual: https://www.newport.com/medias/sys_master/images/images/h11/he1/9117182525470/SMC100CC-SMC100PP-User-s-Manual.pdf"

/-- Decode one `TE?` reply through the table, falling back to the
descriptive message. -/
def decodeError (ret : String) : String :=
  (ERRORS ret).getD (fallbackError ret)

/-- `MotionAxisSMC100.get_errors`, given the (echo-stripped) reply the
device returns to `TE?`: decode it and log a non-empty message; the
decoded message is returned, never raised. -/
def get_errors (num : ℕ) (ret : String) : String × List Ev :=
  let err := decodeError ret
  (err, Ev.query num "TE?" ::
          (if err = "" then [] else [Ev.logErrAxis num err]))

/-- `MotionAxisSMC100.write(command)`: the write itself followed
automatically by `get_errors`. -/
def smcWrite (num : ℕ) (cmd ret : String) : String × List Ev :=
  let g := get_errors num ret
  (g.1, Ev.writeCmd num cmd :: g.2)

/-- `MotionAxisSMC100.motion_done`: no `MD?` query at all, it is
`check_position(self.last_set_position)`. -/
def smc_motion_done (a : Axis) : Bool × List Ev :=
  check_position a a.last_set_position

/-- The `_wait_until_done` poll loop made step-explicit: `md j` is the
reply to the `j`-th `motion_done` query and `fuel` bounds how many
polls we observe.  `waitPoll md i fuel = some k` means the loop,
currently about to issue poll `i`, returns after poll `k`; `none` means
it was still polling when the budget ran out.  The real loop sleeps
`wait_time` before/between polls and has no timeout. -/
def waitPoll (md : ℕ → Bool) : ℕ → ℕ → Option ℕ
  | _, 0 => none
  | i, fuel + 1 => if md i then some i else waitPoll md (i + 1) fuel

/-- The identity environment: a commanded move lands exactly on
target. -/
def settleId : ℕ → ℚ → ℚ := fun _ q => q

section Lemmas

lemma isclose_eq_true_iff (a b t : ℚ) :
    isclose a b t = true ↔ |a - b| ≤ t + rtol * |b| := by
  simp [isclose]

lemma isclose_of_abs_le (a b t : ℚ) (h : |a - b| ≤ t) :
    isclose a b t = true := by
  rw [isclose_eq_true_iff]
  have hnn : (0:ℚ) ≤ rtol * |b| := by
    have h1 : (0:ℚ) ≤ rtol := by norm_num [rtol]
    exact mul_nonneg h1 (abs_nonneg b)
  linarith

lemma waitPoll_eq_some (md : ℕ → Bool) :
    ∀ fuel i k, waitPoll md i fuel = some k →
      md k = true ∧ i ≤ k ∧ ∀ j, i ≤ j → j < k → md j = false := by
  intro fuel
  induction fuel with
  | zero => intro i k h; simp [waitPoll] at h
  | succ m ih =>
      intro i k h
      rw [waitPoll] at h
      by_cases hm : md i = true
      · rw [if_pos hm] at h
        obtain rfl : i = k := by injection h
        exact ⟨hm, le_refl i, fun j h1 h2 => absurd (lt_of_le_of_lt h1 h2) (lt_irrefl i)⟩
      · rw [if_neg hm] at h
        obtain ⟨h1, h2, h3⟩ := ih (i + 1) k h
        refine ⟨h1, by omega, fun j hij hjk => ?_⟩
        rcases Nat.eq_or_lt_of_le hij with heq | hlt
        · subst heq
          simpa using hm
        · exact h3 j (by omega) hjk

lemma waitPoll_isSome (md : ℕ → Bool) :
    ∀ fuel i j, i ≤ j → j < i + fuel → md j = true →
      ∃ k, waitPoll md i fuel = some k := by
  intro fuel
  induction fuel with
  | zero => intro i j h1 h2 _; omega
  | succ m ih =>
      intro i j h1 h2 hj
      rw [waitPoll]
      by_cases hm : md i = true
      · exact ⟨i, if_pos hm⟩
      · have hne : i ≠ j := fun he => hm (he ▸ hj)
        obtain ⟨k, hk⟩ := ih (i + 1) j (by omega) (by omega) hj
        exact ⟨k, by rw [if_neg hm]; exact hk⟩

lemma smc_no_queryErr (script : List String) :
    ∀ i, Ev.queryErr ∉ (detect_axis_smc i script).1 := by
  induction script with
  | nil => intro i; simp [detect_axis_smc]
  | cons id rest ih =>
      intro i
      by_cases h : id = ""
      · simp [detect_axis_smc, h]
      · simp only [detect_axis_smc, if_neg h, List.mem_cons]
        rintro (h1 | h1)
        · exact Ev.noConfusion h1
        · exact ih (i + 1) h1

lemma smc_ids_nonempty (script : List String) :
    ∀ i l, (detect_axis_smc i script).2 = some l → ∀ x ∈ l, x.2 ≠ "" := by
  induction script with
  | nil => intro i l h; simp [detect_axis_smc] at h
  | cons id rest ih =>
      intro i l h x hx
      by_cases hid : id = ""
      · simp [detect_axis_smc, hid] at h
        subst h
        simp at hx
      · simp only [detect_axis_smc, if_neg hid] at h
        cases hr : (detect_axis_smc (i + 1) rest).2 with
        | none => rw [hr] at h; simp at h
        | some l2 =>
            rw [hr] at h
            simp at h
            subst h
            rcases List.mem_cons.mp hx with h1 | h1
            · rw [h1]; exact hid
            · exact ih (i + 1) l2 hr x h1

lemma esp_nums (script : List (Option String × ℕ)) :
    ∀ i l, (detect_axis_esp i script).2 = some (Except.ok l) →
      ∀ j n id, l[j]? = some (some (n, id)) → n = i + j := by
  induction script with
  | nil => intro i l h; simp [detect_axis_esp] at h
  | cons head rest ih =>
      obtain ⟨resp, err⟩ := head
      intro i l h
      cases resp with
      | some id0 =>
          simp only [detect_axis_esp] at h
          cases hr : (detect_axis_esp (i + 1) rest).2 with
          | none => rw [hr] at h; simp at h
          | some x =>
              rw [hr] at h
              cases x with
              | error e => simp [Except.map] at h
              | ok l2 =>
                  simp [Except.map] at h
                  subst h
                  intro j n id hj
                  cases j with
                  | zero =>
                      simp at hj
                      omega
                  | succ j2 =>
                      simp only [List.getElem?_cons_succ] at hj
                      have := ih (i + 1) l2 hr j2 n id hj
                      omega
      | none =>
          by_cases h37 : err = 37
          · subst h37
            simp only [detect_axis_esp, if_pos rfl] at h
            cases hr : (detect_axis_esp (i + 1) rest).2 with
            | none => rw [hr] at h; simp at h
            | some x =>
                rw [hr] at h
                cases x with
                | error e => simp [Except.map] at h
                | ok l2 =>
                    simp [Except.map] at h
                    subst h
                    intro j n id hj
                    cases j with
                    | zero => simp at hj
                    | succ j2 =>
                        simp only [List.getElem?_cons_succ] at hj
                        have := ih (i + 1) l2 hr j2 n id hj
                        omega
          · by_cases h9 : err = 9
            · subst h9
              simp [detect_axis_esp] at h
              subst h
              intro j n id hj
              simp at hj
            · simp [detect_axis_esp, h37, h9] at h

lemma smc_nums (script : List String) :
    ∀ i l, (detect_axis_smc i script).2 = some l →
      ∀ j n id, l[j]? = some ((n, id) : ℕ × String) → n = i + j := by
  induction script with
  | nil => intro i l h; simp [detect_axis_smc] at h
  | cons id0 rest ih =>
      intro i l h
      by_cases hid : id0 = ""
      · simp [detect_axis_smc, hid] at h
        subst h
        intro j n id hj
        simp at hj
      · simp only [detect_axis_smc, if_neg hid] at h
        cases hr : (detect_axis_smc (i + 1) rest).2 with
        | none => rw [hr] at h; simp at h
        | some l2 =>
            rw [hr] at h
            simp at h
            subst h
            intro j n id hj
            cases j with
            | zero => simp at hj; omega
            | succ j2 =>
                simp only [List.getElem?_cons_succ] at hj
                have := ih (i + 1) l2 hr j2 n id hj
                omega

lemma motionEvents_check_position (a : Axis) (p : ℚ) :
    (check_position a p).2.filter Ev.isMotion = [] := by
  unfold check_position
  split <;> simp [Ev.isMotion]

lemma set_position_motion_trace (settle : ℕ → ℚ → ℚ) (a : Axis) (p : ℚ)
    (wait force : Bool) (hOn : a.isOn = true)
    (hGuard : ¬ (force = false ∧ isclose p a.pos a.accuracy = true)) :
    motionEvents (set_position settle a p wait force).2 =
      (if (a.backlash < 0 ∧ a.pos > p) ∨ (a.backlash > 0 ∧ a.pos < p)
       then [Ev.pa a.num (p + a.backlash), Ev.waitDone a.num, Ev.pa a.num p]
       else [Ev.pa a.num p]) ++
      (if wait then [Ev.waitDone a.num] else []) := by
  by_cases hC : (a.backlash < 0 ∧ a.pos > p) ∨ (a.backlash > 0 ∧ a.pos < p)
  · have hbl : ¬ (a.backlash = 0) := by
      rcases hC with ⟨h1, _⟩ | ⟨h1, _⟩
      · exact ne_of_lt h1
      · exact ne_of_gt h1
    cases wait <;>
      simp [set_position, hOn, hGuard, hbl, hC, motionEvents, setPositionRaw,
        waitUntilDone, settleAxis, Ev.isMotion, List.filter_append,
        motionEvents_check_position]
  · by_cases hbl : a.backlash = 0 <;> cases wait <;>
      simp [set_position, hOn, hGuard, hbl, hC, motionEvents, setPositionRaw,
        waitUntilDone, settleAxis, Ev.isMotion, List.filter_append,
        motionEvents_check_position]

lemma set_position_preserves (settle : ℕ → ℚ → ℚ) (a : Axis) (p : ℚ)
    (wait force : Bool) :
    (set_position settle a p wait force).1.num = a.num ∧
    (set_position settle a p wait force).1.isOn = a.isOn ∧
    (set_position settle a p wait force).1.accuracy = a.accuracy ∧
    (set_position settle a p wait force).1.backlash = a.backlash := by
  by_cases h1 : a.isOn = false
  · simp [set_position, h1]
  · by_cases h2 : force = false ∧ isclose p a.pos a.accuracy = true
    · simp [set_position, h1, h2]
    · by_cases hC : (a.backlash < 0 ∧ a.pos > p) ∨ (a.backlash > 0 ∧ a.pos < p)
      · have hbl : ¬ (a.backlash = 0) := by
          rcases hC with ⟨hx, _⟩ | ⟨hx, _⟩
          · exact ne_of_lt hx
          · exact ne_of_gt hx
        cases wait <;>
          simp [set_position, setPositionRaw, waitUntilDone, settleAxis,
            h1, h2, hC, hbl]
      · by_cases hbl : a.backlash = 0 <;> cases wait <;>
          simp [set_position, setPositionRaw, waitUntilDone, settleAxis,
            h1, h2, hC, hbl]

lemma set_position_pending (settle : ℕ → ℚ → ℚ) (a : Axis) (p : ℚ)
    (force : Bool) (hOn : a.isOn = true)
    (hGuard : ¬ (force = false ∧ isclose p a.pos a.accuracy = true)) :
    (set_position settle a p false force).1.pending = some p := by
  by_cases hC : (a.backlash < 0 ∧ a.pos > p) ∨ (a.backlash > 0 ∧ a.pos < p)
  · have hbl : ¬ (a.backlash = 0) := by
      rcases hC with ⟨hx, _⟩ | ⟨hx, _⟩
      · exact ne_of_lt hx
      · exact ne_of_gt hx
    simp [set_position, setPositionRaw, waitUntilDone, settleAxis,
      hOn, hGuard, hC, hbl]
  · by_cases hbl : a.backlash = 0 <;>
      simp [set_position, setPositionRaw, waitUntilDone, settleAxis,
        hOn, hGuard, hC, hbl]

lemma set_position_skip (settle : ℕ → ℚ → ℚ) (a : Axis) (p : ℚ)
    (wait : Bool) (hOn : a.isOn = true)
    (hclose : isclose p a.pos a.accuracy = true) :
    set_position settle a p wait false =
      (a, [Ev.query a.num "MO?", Ev.query a.num "TP?",
           Ev.logInfoSkip a.num p a.pos]) := by
  simp [set_position, hOn, hclose]

lemma check_position_evNum (a : Axis) (p : ℚ) :
    ∀ e ∈ (check_position a p).2, e.evNum = some a.num := by
  unfold check_position
  split
  · intro e he
    simp only [List.mem_singleton] at he
    subst he
    rfl
  · intro e he
    simp only [List.mem_cons, List.not_mem_nil, or_false] at he
    rcases he with rfl | rfl | rfl <;> rfl

lemma set_position_state_nowait (settle : ℕ → ℚ → ℚ) (a : Axis) (p : ℚ)
    (force : Bool) (hOn : a.isOn = true)
    (hGuard : ¬ (force = false ∧ isclose p a.pos a.accuracy = true)) :
    (set_position settle a p false force).1 =
      ⟨a.num, a.isOn, a.backlash, a.accuracy, p,
       (if (a.backlash < 0 ∧ a.pos > p) ∨ (a.backlash > 0 ∧ a.pos < p)
        then settle a.num (p + a.backlash) else a.pos), some p⟩ := by
  by_cases hC : (a.backlash < 0 ∧ a.pos > p) ∨ (a.backlash > 0 ∧ a.pos < p)
  · have hbl : ¬ (a.backlash = 0) := by
      rcases hC with ⟨hx, _⟩ | ⟨hx, _⟩
      · exact ne_of_lt hx
      · exact ne_of_gt hx
    simp [set_position, setPositionRaw, waitUntilDone, settleAxis,
      hOn, hGuard, hC, hbl]
  · by_cases hbl : a.backlash = 0 <;>
      simp [set_position, setPositionRaw, waitUntilDone, settleAxis,
        hOn, hGuard, hC, hbl]

lemma set_position_trace_nowait (settle : ℕ → ℚ → ℚ) (a : Axis) (p : ℚ)
    (force : Bool) (hOn : a.isOn = true)
    (hGuard : ¬ (force = false ∧ isclose p a.pos a.accuracy = true)) :
    (set_position settle a p false force).2 =
      [Ev.query a.num "MO?", Ev.query a.num "TP?"] ++
      (if (a.backlash < 0 ∧ a.pos > p) ∨ (a.backlash > 0 ∧ a.pos < p)
       then [Ev.query a.num "TP?", Ev.logInfoBacklash a.num,
             Ev.pa a.num (p + a.backlash), Ev.waitDone a.num]
       else if a.backlash = 0 then [] else [Ev.query a.num "TP?"]) ++
      [Ev.pa a.num p] := by
  by_cases hC : (a.backlash < 0 ∧ a.pos > p) ∨ (a.backlash > 0 ∧ a.pos < p)
  · have hbl : ¬ (a.backlash = 0) := by
      rcases hC with ⟨hx, _⟩ | ⟨hx, _⟩
      · exact ne_of_lt hx
      · exact ne_of_gt hx
    simp [set_position, setPositionRaw, waitUntilDone, settleAxis,
      hOn, hGuard, hC, hbl]
  · by_cases hbl : a.backlash = 0 <;>
      simp [set_position, setPositionRaw, waitUntilDone, settleAxis,
        hOn, hGuard, hC, hbl]

lemma set_position_evNum_nowait (settle : ℕ → ℚ → ℚ) (a : Axis) (p : ℚ)
    (force : Bool) (hOn : a.isOn = true)
    (hGuard : ¬ (force = false ∧ isclose p a.pos a.accuracy = true)) :
    ∀ e ∈ (set_position settle a p false force).2, e.evNum = some a.num := by
  intro e he
  rw [set_position_trace_nowait settle a p force hOn hGuard] at he
  simp only [List.cons_append, List.nil_append, List.mem_cons,
    List.mem_append, List.not_mem_nil, or_false, false_or] at he
  rcases he with rfl | rfl | he | rfl
  · rfl
  · rfl
  · split at he
    · simp only [List.mem_cons, List.not_mem_nil, or_false] at he
      rcases he with rfl | rfl | rfl | rfl <;> rfl
    · split at he
      · exact absurd he (List.not_mem_nil e)
      · simp only [List.mem_singleton] at he
        subst he
        rfl
  · rfl

end Lemmas

/-- C1: in `MotionAxis._set_position` with the axis enabled and the
closeness check passed, the motion commands are: an intermediate
absolute move to `pos + backlash` followed by a wait, present iff the
backlash is non-zero and (backlash negative with current position
above target, or positive with current position below target); then
exactly one final `PA<pos>`; then the final wait when `wait` is set.
In particular with backlash `-0.5`, current position `10` and target
`5` the moves are `PA4.5` then `PA5.0`, and with backlash `0` only
`PA5.0` (see the witness). -/
theorem set_position_backlash (settle : ℕ → ℚ → ℚ) (a : Axis) (p : ℚ)
    (wait force : Bool) (hOn : a.isOn = true)
    (hGuard : force = true ∨ isclose p a.pos a.accuracy = false) :
    motionEvents (set_position settle a p wait force).2 =
      (if a.backlash ≠ 0 ∧
           ((a.backlash < 0 ∧ a.pos > p) ∨ (a.backlash > 0 ∧ a.pos < p))
       then [Ev.pa a.num (p + a.backlash), Ev.waitDone a.num, Ev.pa a.num p]
       else [Ev.pa a.num p]) ++
      (if wait then [Ev.waitDone a.num] else []) := by
  have hG2 : ¬ (force = false ∧ isclose p a.pos a.accuracy = true) := by
    rintro ⟨hf, hc⟩
    rcases hGuard with h | h
    · rw [h] at hf
      cases hf
    · rw [h] at hc
      cases hc
  rw [set_position_motion_trace settle a p wait force hOn hG2]
  congr 1
  by_cases hC : (a.backlash < 0 ∧ a.pos > p) ∨ (a.backlash > 0 ∧ a.pos < p)
  · have hbl : ¬ (a.backlash = 0) := by
      rcases hC with ⟨hx, _⟩ | ⟨hx, _⟩
      · exact ne_of_lt hx
      · exact ne_of_gt hx
    simp [hC, hbl]
  · simp [hC]

/-- Witness for C1: backlash `-1/2`, current position `10`, target `5`
gives moves `PA(9/2)`, wait, `PA5`; backlash `0` gives only `PA5`. -/
theorem set_position_backlash_witness :
    motionEvents (set_position settleId
        ⟨1, true, -1/2, 1/1000, 0, 10, none⟩ 5 false false).2 =
      [Ev.pa 1 (9/2), Ev.waitDone 1, Ev.pa 1 5] ∧
    motionEvents (set_position settleId
        ⟨1, true, 0, 1/1000, 0, 10, none⟩ 5 false false).2 =
      [Ev.pa 1 5] := by
  constructor
  · have h := set_position_backlash settleId ⟨1, true, -1/2, 1/1000, 0, 10, none⟩
      5 false false rfl (Or.inr (by norm_num [isclose, rtol, abs_le]))
    rw [h]
    norm_num
  · have h := set_position_backlash settleId ⟨1, true, 0, 1/1000, 0, 10, none⟩
      5 false false rfl (Or.inr (by norm_num [isclose, rtol, abs_le]))
    rw [h]
    norm_num

/-- C2: the claim states that after a first `_set_position(pos)` that
completes with the axis within accuracy of `pos`, a second call issues
no `PA` and exactly one `PA` for the final target is sent across the
two calls.  When the axis already rests on the target, the first call
also skips the move, so zero `PA` commands are sent in total — not
exactly one: axis at position 5 with accuracy `1/1000`, two calls with
target 5. -/
theorem set_position_idempotent_counterexample :
    |(set_position settleId ⟨1, true, 0, 1/1000, 5, 5, none⟩ 5 true false).1.pos
        - 5| ≤ (1/1000 : ℚ) ∧
    paEvents ((set_position settleId ⟨1, true, 0, 1/1000, 5, 5, none⟩ 5 true false).2
        ++ (set_position settleId
              (set_position settleId ⟨1, true, 0, 1/1000, 5, 5, none⟩ 5 true false).1
              5 true false).2) = [] := by
  have hskip := set_position_skip settleId ⟨1, true, 0, 1/1000, 5, 5, none⟩ 5 true
    rfl (by norm_num [isclose, rtol])
  constructor
  · rw [hskip]
    norm_num
  · rw [hskip]
    rw [hskip]
    simp [paEvents, Ev.isPa]

/-- C2 (amended): when the first `_set_position(pos)` actually moves
(its closeness check fails) and the stage then lands within `accuracy`
of `pos`, the second call issues no `PA` command at all and exactly
one `PA` command for the final target is sent across the two calls;
in all cases the second call is a no-op. -/
theorem set_position_idempotent (settle : ℕ → ℚ → ℚ) (a : Axis) (p : ℚ)
    (hOn : a.isOn = true)
    (hmove : isclose p a.pos a.accuracy = false)
    (hland : |(set_position settle a p true false).1.pos - p| ≤ a.accuracy) :
    paEvents (set_position settle
        (set_position settle a p true false).1 p true false).2 = [] ∧
    ((set_position settle a p true false).2 ++
      (set_position settle
        (set_position settle a p true false).1 p true false).2).count
      (Ev.pa a.num p) = 1 := by
  obtain ⟨hnum, hOn1, hacc, _⟩ := set_position_preserves settle a p true false
  have hOn1T : (set_position settle a p true false).1.isOn = true := by
    rw [hOn1, hOn]
  have hclose2 : isclose p (set_position settle a p true false).1.pos
      (set_position settle a p true false).1.accuracy = true := by
    rw [hacc]
    apply isclose_of_abs_le
    rw [abs_sub_comm]
    exact hland
  have hskip := set_position_skip settle (set_position settle a p true false).1
    p true hOn1T hclose2
  have hguard : ¬ (false = false ∧ isclose p a.pos a.accuracy = true) := by
    rintro ⟨_, hc⟩
    rw [hmove] at hc
    cases hc
  constructor
  · rw [hskip]
    simp [paEvents, Ev.isPa]
  · rw [List.count_append]
    have ht2 : (set_position settle
        (set_position settle a p true false).1 p true false).2.count
        (Ev.pa a.num p) = 0 := by
      rw [hskip]
      simp
    have hfilter : ((set_position settle a p true false).2).count (Ev.pa a.num p)
        = (motionEvents (set_position settle a p true false).2).count
            (Ev.pa a.num p) := by
      unfold motionEvents
      exact (List.count_filter rfl).symm
    rw [ht2, hfilter,
      set_position_motion_trace settle a p true false hOn hguard]
    by_cases hC : (a.backlash < 0 ∧ a.pos > p) ∨ (a.backlash > 0 ∧ a.pos < p)
    · have hbl : ¬ (a.backlash = 0) := by
        rcases hC with ⟨hx, _⟩ | ⟨hx, _⟩
        · exact ne_of_lt hx
        · exact ne_of_gt hx
      simp [hC, hbl]
    · simp [hC]

/-- Witness for C2's amended theorem: axis at 10 with backlash `-1/2`,
target 5, ideal settling — the second call issues no `PA` and exactly
one `PA5` is sent across both calls. -/
theorem set_position_idempotent_witness :
    paEvents (set_position settleId
        (set_position settleId ⟨1, true, -1/2, 1/1000, 0, 10, none⟩ 5 true false).1
        5 true false).2 = [] ∧
    ((set_position settleId ⟨1, true, -1/2, 1/1000, 0, 10, none⟩ 5 true false).2 ++
      (set_position settleId
        (set_position settleId ⟨1, true, -1/2, 1/1000, 0, 10, none⟩ 5 true false).1
        5 true false).2).count (Ev.pa 1 5) = 1 := by
  exact set_position_idempotent settleId ⟨1, true, -1/2, 1/1000, 0, 10, none⟩ 5
    rfl (by norm_num [isclose, rtol, abs_le])
    (by norm_num [set_position, setPositionRaw, waitUntilDone, settleAxis,
          check_position, isclose, rtol, settleId, abs_le])

/-- C5: writing the position sequence `[12.0, None]` to a 2-axis
controller: the axis with the absent entry receives no command at all
— every event addressed to axis 2 is the final aggregate `TP?` re-read
— while the present value is dispatched to axis 1, which is then the
only axis waited on (every move or wait event addresses axis 1, and
`PA` to axis 1 and a wait on axis 1 do occur); axis 2's state is
returned unchanged and the result is the freshly re-read vector, axis
2's entry being its last read position. -/
theorem ctrl_position_skips_absent (settle : ℕ → ℚ → ℚ) (a1 a2 : Axis)
    (h1 : a1.num = 1) (h2 : a2.num = 2) (hOn : a1.isOn = true)
    (hGuard : isclose 12 a1.pos a1.accuracy = false) :
    (∀ e ∈ (ctrl_position settle [a1, a2] [some 12, none] true).2.2,
       e.isMotion = true → e.evNum = some 1) ∧
    Ev.pa 1 12 ∈ (ctrl_position settle [a1, a2] [some 12, none] true).2.2 ∧
    Ev.waitDone 1 ∈ (ctrl_position settle [a1, a2] [some 12, none] true).2.2 ∧
    (∀ e ∈ (ctrl_position settle [a1, a2] [some 12, none] true).2.2,
       e.evNum = some 2 → e = Ev.query 2 "TP?") ∧
    (∃ b, (ctrl_position settle [a1, a2] [some 12, none] true).1 = [b, a2]) ∧
    (ctrl_position settle [a1, a2] [some 12, none] true).2.1 =
      [some (settle 1 12), some a2.pos] := by
  have hguard2 : ¬ (false = false ∧ isclose 12 a1.pos a1.accuracy = true) := by
    rintro ⟨_, hc⟩
    rw [hGuard] at hc
    cases hc
  obtain ⟨hnum1, _, _, _⟩ := set_position_preserves settle a1 12 false false
  have hA : settleAxis settle (set_position settle a1 12 false false).1 =
      ⟨a1.num, a1.isOn, a1.backlash, a1.accuracy, 12, settle a1.num 12, none⟩ := by
    rw [set_position_state_nowait settle a1 12 false hOn hguard2]
    simp [settleAxis]
  have hmain : ctrl_position settle [a1, a2] [some 12, none] true =
      ([settleAxis settle (set_position settle a1 12 false false).1, a2],
       [some (settleAxis settle (set_position settle a1 12 false false).1).pos,
        some a2.pos],
       (set_position settle a1 12 false false).2 ++
         (Ev.waitDone (set_position settle a1 12 false false).1.num ::
           (check_position
             (settleAxis settle (set_position settle a1 12 false false).1) 12).2) ++
         [Ev.query
            (settleAxis settle (set_position settle a1 12 false false).1).num "TP?",
          Ev.query a2.num "TP?"]) := by
    simp [ctrl_position, dispatchMoves, waitAndCheck, positionRead, waitUntilDone]
  have hpamem : Ev.pa a1.num 12 ∈ (set_position settle a1 12 false false).2 := by
    rw [set_position_trace_nowait settle a1 12 false hOn hguard2]
    simp
  refine ⟨?_, ?_, ?_, ?_, ?_, ?_⟩
  · intro e he hm
    rw [hmain] at he
    simp only [hA, List.cons_append, List.nil_append, List.mem_append,
      List.mem_cons, List.not_mem_nil, or_false, false_or] at he
    rcases he with (he | rfl | he) | rfl | rfl
    · have := set_position_evNum_nowait settle a1 12 false hOn hguard2 e he
      rw [h1] at this
      exact this
    · simp [Ev.evNum, hnum1, h1]
    · have := check_position_evNum _ 12 e he
      simpa [h1] using this
    · simp [Ev.isMotion] at hm
    · simp [Ev.isMotion] at hm
  · rw [hmain]
    have hp2 : Ev.pa 1 12 ∈ (set_position settle a1 12 false false).2 := by
      rw [← h1]
      exact hpamem
    exact List.mem_append_left _ (List.mem_append_left _ hp2)
  · have hwd1 : Ev.waitDone 1 =
        Ev.waitDone (set_position settle a1 12 false false).1.num := by
      rw [hnum1, h1]
    rw [hmain, hwd1]
    exact List.mem_append_left _
      (List.mem_append_right _ (List.mem_cons_self _ _))
  · intro e he hev
    rw [hmain] at he
    simp only [hA, List.cons_append, List.nil_append, List.mem_append,
      List.mem_cons, List.not_mem_nil, or_false, false_or] at he
    rcases he with (he | rfl | he) | rfl | rfl
    · have := set_position_evNum_nowait settle a1 12 false hOn hguard2 e he
      rw [h1] at this
      rw [this] at hev
      simp at hev
    · rw [hnum1, h1] at hev
      simp [Ev.evNum] at hev
    · have := check_position_evNum _ 12 e he
      simp only [h1] at this
      rw [this] at hev
      simp at hev
    · simp only [Ev.evNum, h1] at hev
      simp at hev
    · rw [h2]
  · rw [hmain]
    exact ⟨settleAxis settle (set_position settle a1 12 false false).1, rfl⟩
  · rw [hmain, hA]
    simp [h1]

/-- Witness for C5: a concrete 2-axis controller (axis 1 at 0, axis 2
at 7, ideal settling) given `[12.0, None]`: the moves touch only axis
1 and the fresh position vector is `[12, 7]`. -/
theorem ctrl_position_skips_absent_witness :
    Ev.pa 1 12 ∈ (ctrl_position settleId
        [⟨1, true, 0, 1/1000, 0, 0, none⟩, ⟨2, true, 0, 1/1000, 7, 7, none⟩]
        [some 12, none] true).2.2 ∧
    (ctrl_position settleId
        [⟨1, true, 0, 1/1000, 0, 0, none⟩, ⟨2, true, 0, 1/1000, 7, 7, none⟩]
        [some 12, none] true).2.1 = [some 12, some 7] := by
  have h := ctrl_position_skips_absent settleId
    ⟨1, true, 0, 1/1000, 0, 0, none⟩ ⟨2, true, 0, 1/1000, 7, 7, none⟩
    rfl rfl rfl (by norm_num [isclose, rtol, abs_le])
  exact ⟨h.2.1, h.2.2.2.2.2⟩

/-- C7: the embedded `_wait_until_done` poll loop (`waitPoll`, with
`md j` the reply to the `j`-th `motion_done` query) has no timeout: it
returns within some step budget iff some reply is eventually true, and
when it returns after poll `k`, that poll was the first true reply —
every earlier poll returned false.  If no reply is ever true, no
budget suffices: the loop never terminates. -/
theorem wait_until_done_no_timeout (md : ℕ → Bool) :
    ((∃ fuel k, waitPoll md 0 fuel = some k) ↔ ∃ n, md n = true) ∧
    (∀ fuel k, waitPoll md 0 fuel = some k →
       md k = true ∧ ∀ j, j < k → md j = false) := by
  constructor
  · constructor
    · rintro ⟨fuel, k, h⟩
      exact ⟨k, (waitPoll_eq_some md fuel 0 k h).1⟩
    · rintro ⟨n, hn⟩
      obtain ⟨k, hk⟩ := waitPoll_isSome md (n + 1) 0 n (by omega) (by omega) hn
      exact ⟨n + 1, k, hk⟩
  · intro fuel k h
    obtain ⟨h1, _, h3⟩ := waitPoll_eq_some md fuel 0 k h
    exact ⟨h1, fun j hj => h3 j (by omega) hj⟩

/-- Witness for C7: with replies false, true, true, … the loop returns
after poll 1, the first true reply. -/
theorem wait_until_done_no_timeout_witness :
    waitPoll (fun n => 1 ≤ n) 0 5 = some 1 ∧
    ((fun n : ℕ => decide (1 ≤ n)) 1 = true ∧
      ∀ j, j < 1 → (fun n : ℕ => decide (1 ≤ n)) j = false) := by
  have h : waitPoll (fun n => 1 ≤ n) 0 5 = some 1 := by
    simp [waitPoll]
  exact ⟨h, (wait_until_done_no_timeout (fun n => decide (1 ≤ n))).2 5 1 h⟩

/-- C4: in ESP301 discovery a failed identity query is followed by a
`TE?` error read; code 37 appends an empty slot and continues at the
next address, code 9 stops the scan, any other code is raised to the
caller.  SMC100 discovery never issues an error query: an empty
identity reply alone stops the scan, no placeholder is appended (the
result list has no empty slots by construction) and every kept axis
has a non-empty identifier. -/
theorem detect_axis_error_codes :
    (∀ i rest, detect_axis_esp i ((none, 37) :: rest) =
        (Ev.queryIdn i :: Ev.queryErr :: (detect_axis_esp (i + 1) rest).1,
         (detect_axis_esp (i + 1) rest).2.map
           (Except.map (fun l => none :: l)))) ∧
    (∀ i rest, detect_axis_esp i ((none, 9) :: rest) =
        ([Ev.queryIdn i, Ev.queryErr], some (Except.ok []))) ∧
    (∀ i e rest, e ≠ 37 → e ≠ 9 → detect_axis_esp i ((none, e) :: rest) =
        ([Ev.queryIdn i, Ev.queryErr], some (Except.error e))) ∧
    (∀ i script, Ev.queryErr ∉ (detect_axis_smc i script).1) ∧
    (∀ i rest, detect_axis_smc i ("" :: rest) = ([Ev.queryIdn i], some [])) ∧
    (∀ i script l, (detect_axis_smc i script).2 = some l →
        ∀ x ∈ l, x.2 ≠ "") := by
  refine ⟨fun i rest => by simp [detect_axis_esp],
          fun i rest => by simp [detect_axis_esp],
          fun i e rest h37 h9 => by simp [detect_axis_esp, h37, h9],
          fun i script => smc_no_queryErr script i,
          fun i rest => by simp [detect_axis_smc],
          fun i script l h => smc_ids_nonempty script i l h⟩

/-- Witness for C4: an unrecognized error code 5 at address 1 is
raised, and the two axes an SMC100 scan of replies `"A1"`, `""` keeps
both have non-empty identifiers. -/
theorem detect_axis_error_codes_witness :
    detect_axis_esp 1 [(none, 5)] =
      ([Ev.queryIdn 1, Ev.queryErr], some (Except.error 5)) ∧
    (∀ x ∈ [((1 : ℕ), "A1")], x.2 ≠ "") := by
  constructor
  · exact detect_axis_error_codes.2.2.1 1 5 [] (by decide) (by decide)
  · refine detect_axis_error_codes.2.2.2.2.2 1 ["A1", ""] [(1, "A1")] ?_
    simp [detect_axis_smc]

/-- C9: discovery yields contiguous 1-based addressing — whenever a
scan started at address 1 returns a result, every present axis in the
result list stores exactly its 1-based position in the list as its
address `num`, for the ESP301 scan (where error-37 gaps occupy a slot)
and for the SMC100 scan alike. -/
theorem detect_axis_contiguous :
    (∀ script evs l, detect_axis_esp 1 script = (evs, some (Except.ok l)) →
       ∀ j n id, l[j]? = some (some (n, id)) → n = j + 1) ∧
    (∀ script evs l, detect_axis_smc 1 script = (evs, some l) →
       ∀ j n id, l[j]? = some ((n, id) : ℕ × String) → n = j + 1) := by
  constructor
  · intro script evs l h j n id hj
    have h2 : (detect_axis_esp 1 script).2 = some (Except.ok l) := by rw [h]
    have := esp_nums script 1 l h2 j n id hj
    omega
  · intro script evs l h j n id hj
    have h2 : (detect_axis_smc 1 script).2 = some l := by rw [h]
    have := smc_nums script 1 l h2 j n id hj
    omega

/-- Witness for C9: the ESP301 scan of replies id, failure-37, id,
failure-9 returns slots `[some (1, X1), none, some (3, X3)]`, and the
present axis at 0-based position 2 has address 3. -/
theorem detect_axis_contiguous_witness :
    (detect_axis_esp 1 [(some "X1", 0), (none, 37), (some "X3", 0), (none, 9)]).2
      = some (Except.ok [some (1, "X1"), none, some (3, "X3")]) ∧ (3 : ℕ) = 2 + 1 := by
  have h : detect_axis_esp 1 [(some "X1", 0), (none, 37), (some "X3", 0), (none, 9)]
      = ((detect_axis_esp 1 [(some "X1", 0), (none, 37), (some "X3", 0), (none, 9)]).1,
         some (Except.ok [some (1, "X1"), none, some (3, "X3")])) := by
    simp [detect_axis_esp, Except.map]
  refine ⟨by rw [h], ?_⟩
  exact detect_axis_contiguous.1 _ _ _ h 2 3 "X3" (by simp)

/-- C3: the claim states `check_position(pos)` is true iff
`abs(current - pos) <= accuracy`.  The source uses
`np.isclose(self.position, pos, atol=self.accuracy)`, which keeps
numpy's default relative tolerance `rtol = 1e-5`, so the actual bound
is `accuracy + 1e-5 * abs(pos)`.  At `accuracy = 1/1000`, expected
position `10` and measured position `10 + 21/20000` the difference
`21/20000 = 0.00105` exceeds `accuracy` yet `check_position` returns
true. -/
theorem check_position_rtol_counterexample :
    (check_position
        ⟨1, true, 0, 1/1000, 0, 10 + 21/20000, none⟩ 10).1 = true ∧
    ¬ (|(10 + 21/20000 - 10 : ℚ)| ≤ 1/1000) := by
  constructor
  · norm_num [check_position, isclose, rtol, abs_le]
  · norm_num [abs_le]

/-- C3 (amended): `check_position(pos)` returns true iff
`abs(current - pos) <= accuracy + rtol * abs(pos)` with numpy's default
`rtol = 1e-5`; when it returns false it logs an error reporting the
accuracy, the expected and the measured position.  It is a total
function (never raises). -/
theorem check_position_spec (a : Axis) (p : ℚ) :
    ((check_position a p).1 = true ↔
       |a.pos - p| ≤ a.accuracy + rtol * |p|) ∧
    ((check_position a p).1 = false →
       Ev.logErrCheck a.num a.accuracy p a.pos ∈ (check_position a p).2) := by
  cases h : isclose a.pos p a.accuracy with
  | false =>
      have hp : ¬ (|a.pos - p| ≤ a.accuracy + rtol * |p|) := by
        rw [← isclose_eq_true_iff]
        simp [h]
      simp [check_position, h, hp]
  | true =>
      have hp : |a.pos - p| ≤ a.accuracy + rtol * |p| :=
        (isclose_eq_true_iff _ _ _).mp h
      simp [check_position, h, hp]

/-- Witness for C3's amended theorem at a concrete input: with
accuracy `1/1000`, expected `10` and measured `10 + 21/20000` the
relative-tolerance bound holds, so `check_position` returns true. -/
theorem check_position_spec_witness :
    (check_position ⟨1, true, 0, 1/1000, 0, 10 + 21/20000, none⟩ 10).1 = true := by
  refine (check_position_spec ⟨1, true, 0, 1/1000, 0, 10 + 21/20000, none⟩ 10).1.mpr ?_
  norm_num [rtol, abs_le]

/-- C6: `_set_position` on a disabled axis only queries `MO?` and logs
the `Axis not enabled. Not moving!` error: no `PA` (intermediate or
final) and no wait are issued, the axis state — in particular
`last_set_position` — is unchanged, and the function is total (no
exception). -/
theorem set_position_disabled (settle : ℕ → ℚ → ℚ) (a : Axis) (p : ℚ)
    (wait force : Bool) (h : a.isOn = false) :
    set_position settle a p wait force =
      (a, [Ev.query a.num "MO?", Ev.logErrNotEnabled a.num]) ∧
    motionEvents (set_position settle a p wait force).2 = [] ∧
    (set_position settle a p wait force).1.last_set_position =
      a.last_set_position := by
  have he : set_position settle a p wait force =
      (a, [Ev.query a.num "MO?", Ev.logErrNotEnabled a.num]) := by
    unfold set_position
    rw [if_pos h]
  refine ⟨he, ?_, ?_⟩
  · rw [he]
    simp [motionEvents, Ev.isMotion]
  · rw [he]

/-- Witness for C6: a concrete disabled axis produces exactly the
`MO?` query and the error log, and moves nothing. -/
theorem set_position_disabled_witness :
    set_position settleId ⟨3, false, 0, 1/1000, 7, 7, none⟩ 12 true false =
      (⟨3, false, 0, 1/1000, 7, 7, none⟩,
       [Ev.query 3 "MO?", Ev.logErrNotEnabled 3]) := by
  exact (set_position_disabled settleId ⟨3, false, 0, 1/1000, 7, 7, none⟩
    12 true false rfl).1

/-- C8: every SMC100 write is followed automatically by a `TE?` error
query; decoding `"@"` yields the empty string; decoding any code
missing from the fixed table yields the fallback message, which
contains that code; a non-empty decoded message is logged as an axis
error, and decoding is a total function (never raises). -/
theorem smc_error_handling :
    (∀ n cmd ret, (smcWrite n cmd ret).2 =
        Ev.writeCmd n cmd :: Ev.query n "TE?" ::
          (if decodeError ret = "" then []
           else [Ev.logErrAxis n (decodeError ret)])) ∧
    decodeError "@" = "" ∧
    (∀ s, ERRORS s = none →
        ∃ pre post, decodeError s = pre ++ s ++ post ∧ pre ≠ "") ∧
    (∀ n ret, (get_errors n ret).1 ≠ "" →
        Ev.logErrAxis n (get_errors n ret).1 ∈ (get_errors n ret).2) := by
  refine ⟨fun n cmd ret => rfl, rfl, ?_, ?_⟩
  · intro s hs
    refine ⟨"Error ", ". Lookup in manual: https://www.newport.com/medias/sys_master/images/images/h11/he1/9117182525470/SMC100CC-SMC100PP-User-s-Manual.pdf", ?_, by decide⟩
    simp [decodeError, hs, fallbackError, String.append_assoc]
  · intro n ret h
    have h2 : (get_errors n ret).1 = decodeError ret := rfl
    rw [h2] at h ⊢
    simp [get_errors, h]

/-- Witness for C8: the unmapped code `"Z"` decodes to the fallback
message containing `"Z"`, and a non-empty message (here from code
`"M"`) is logged. -/
theorem smc_error_handling_witness :
    (∃ pre post, decodeError "Z" = pre ++ "Z" ++ post ∧ pre ≠ "") ∧
    Ev.logErrAxis 1 (get_errors 1 "M").1 ∈ (get_errors 1 "M").2 := by
  refine ⟨smc_error_handling.2.2.1 "Z" rfl, ?_⟩
  refine smc_error_handling.2.2.2 1 "M" ?_
  decide

/-- C10: the claim states `motion_done` on an SMC100 axis is true iff
the current position is within `accuracy` of `last_set_position`.  It
is in fact `check_position(last_set_position)`, whose `np.isclose`
call keeps numpy's default `rtol = 1e-5`: with `accuracy = 1/1000`,
`last_set_position = 10` and current position `10 + 21/20000`
(difference `0.00105 > accuracy`) `motion_done` reports true. -/
theorem smc_motion_done_rtol_counterexample :
    (smc_motion_done ⟨1, true, 0, 1/1000, 10, 10 + 21/20000, none⟩).1 = true ∧
    ¬ (|(10 + 21/20000 - 10 : ℚ)| ≤ 1/1000) := by
  constructor
  · norm_num [smc_motion_done, check_position, isclose, rtol, abs_le]
  · norm_num [abs_le]

/-- C10 (amended): `MotionAxisSMC100.motion_done` equals
`check_position(last_set_position)`: it never queries the moving-state
register `MD?` (its only device interaction is the `TP?` position
read, plus the mismatch log), and it returns true iff the current
position is within `accuracy + rtol * abs(last_set_position)` of
`last_set_position` (numpy `isclose`, default `rtol = 1e-5`); hence a
wait loop on an SMC100 axis terminates exactly when the position comes
within that tolerance of the last commanded target. -/
theorem smc_motion_done_spec (a : Axis) :
    smc_motion_done a = check_position a a.last_set_position ∧
    ((smc_motion_done a).1 = true ↔
       |a.pos - a.last_set_position| ≤
         a.accuracy + rtol * |a.last_set_position|) ∧
    (∀ e ∈ (smc_motion_done a).2,
       e = Ev.query a.num "TP?" ∨
       e = Ev.logErrCheck a.num a.accuracy a.last_set_position a.pos) := by
  refine ⟨rfl, (check_position_spec a a.last_set_position).1, ?_⟩
  intro e he
  unfold smc_motion_done check_position at he
  split at he
  · simp_all
  · simp_all

/-- Witness for C10's amended theorem: an axis resting exactly on its
last commanded target reports `motion_done = true`. -/
theorem smc_motion_done_spec_witness :
    (smc_motion_done ⟨2, true, 0, 1/1000, 4, 4, none⟩).1 = true := by
  refine (smc_motion_done_spec ⟨2, true, 0, 1/1000, 4, 4, none⟩).2.1.mpr ?_
  norm_num [rtol]


end Newport
